import Mathlib

/-!
Verification of the gocmdcache package: a two-tier (in-process memory +
on-disk) cache for the results of "go list -json" and "go build"-based
package-size queries.

Modelling conventions, mirroring the Go source (gocmdcache.go):

* Go strings and byte slices are modelled as lists of characters (Str).
* The cache root directory is modelled as an association list from
  file name (relative to the cache root) to file contents; every file the
  package touches lives directly inside the cache root
  (the token file "=glo=", and entry files "<encoded dir>.<tag>").
  Writing a file prepends the binding (lookups take the first match,
  so this models whole-file replacement); RemoveAll-plus-Mkdir of the
  root yields the empty list; removal of a single file erases every
  binding for its name.
* External collaborators ("go list -json", encoding/json unmarshalling
  into the Pkg struct, "go build -o", "go tool nm") are deterministic
  out-of-process oracles, modelled as fields of an Env record returning
  Option results (none = the invocation or decode failed).  Disk-write
  failures are injected through the Env field diskWriteFails, keyed by
  file name; reads of the modelled directory fail only by absence, which
  matches the os.IsNotExist handling in the source.
* Mutex operations and verbosity printing have no observable effect in a
  sequential model and are omitted; every operation is a pure function
  from (Env, Cache, Disk) to a result together with the updated
  Cache and Disk.  Machine integers (file sizes, function counts) stay
  far from 64-bit overflow, so they are modelled as Int.
-/

deriving instance DecidableEq for Except

namespace Gocmdcache

/-- Go strings / byte slices are modelled as lists of characters. -/
abbrev Str := List Char

/-- Contents of the cache root directory: file name to file contents. -/
abbrev Disk := List (Str × Str)

/-- Go map lookup on an association list (first binding wins). -/
def lookupA {α : Type} : List (Str × α) → Str → Option α
  | [], _ => none
  | (k2, v) :: rest, k => if k2 = k then some v else lookupA rest k

/-- Go map assignment, modelled as a shadowing prepend. -/
def setA {α : Type} (m : List (Str × α)) (k : Str) (v : α) : List (Str × α) :=
  (k, v) :: m

/-- Read a file inside the cache root (none models os.IsNotExist). -/
def getFile (d : Disk) (k : Str) : Option Str := lookupA d k

/-- Create or replace a file inside the cache root (os.WriteFile). -/
def setFile (d : Disk) (k : Str) (v : Str) : Disk := (k, v) :: d

/-- Delete a file inside the cache root (os.Remove / os.RemoveAll on a file). -/
def eraseFile : Disk → Str → Disk
  | [], _ => []
  | (k2, v) :: rest, k =>
    if k2 = k then eraseFile rest k else (k2, v) :: eraseFile rest k

/-- Whitespace predicate of Go unicode.IsSpace restricted to the code points
the package can encounter (strings.TrimSpace, strings.Fields). -/
def isGoSpace (ch : Char) : Bool :=
  decide (ch.toNat = 32 ∨ ch.toNat = 9 ∨ ch.toNat = 10 ∨ ch.toNat = 11 ∨
          ch.toNat = 12 ∨ ch.toNat = 13 ∨ ch.toNat = 133 ∨ ch.toNat = 160)

/-- Drop the leading run of whitespace characters. -/
def dropSp : Str → Str
  | [] => []
  | c :: cs => if isGoSpace c then dropSp cs else c :: cs

/-- strings.TrimSpace: drop leading and trailing whitespace. -/
def trimSpace (s : Str) : Str := (dropSp (dropSp s).reverse).reverse

/-- strings.Split(s, "\n"). -/
def splitOnNl : Str → List Str
  | [] => [[]]
  | c :: cs =>
    if c = '\n' then [] :: splitOnNl cs
    else
      match splitOnNl cs with
      | [] => [[c]]
      | l :: ls => (c :: l) :: ls

/-- Helper for strings.Fields: split on every whitespace character. -/
def splitWs : Str → List Str
  | [] => [[]]
  | c :: cs =>
    if isGoSpace c then [] :: splitWs cs
    else
      match splitWs cs with
      | [] => [[c]]
      | l :: ls => (c :: l) :: ls

/-- strings.Fields: the maximal non-empty whitespace-separated substrings. -/
def fields (s : Str) : List Str := (splitWs s).filter (fun w => ¬ w = [])

/-- Decimal digit test of the fmt scanner ('0' <= r && r <= '9'). -/
def isDig (c : Char) : Bool := decide (48 ≤ c.toNat ∧ c.toNat ≤ 57)

/-- Numeric value of a string of decimal digits, most significant first. -/
def digitsVal (ds : Str) : Nat := ds.foldl (fun a c => 10 * a + (c.toNat - 48)) 0

/-- Skip spaces the way the fmt scanner does for a %d verb in Sscanf:
plain spaces and tabs are skipped, a newline is an error (none) because
newlines in the input must match newlines in the format. -/
def skipScanSpace : Str → Option Str
  | [] => some []
  | c :: cs =>
    if c.toNat = 10 then none
    else if c.toNat = 32 ∨ c.toNat = 9 ∨ c.toNat = 11 ∨ c.toNat = 12 ∨ c.toNat = 13 then
      skipScanSpace cs
    else some (c :: cs)

/-- Consume an optional sign, as the fmt scanner accepts for %d. -/
def parseSign (s : Str) : Bool × Str :=
  match s with
  | [] => (false, [])
  | c :: cs =>
    if c = '-' then (true, cs)
    else if c = '+' then (false, cs)
    else (false, c :: cs)

/-- Consume a non-empty maximal run of decimal digits and return its value
together with the unconsumed remainder; none if no digit is present. -/
def parseDigits (cs : Str) : Option (Nat × Str) :=
  let ds := cs.takeWhile isDig
  if ds = [] then none
  else some (digitsVal ds, cs.dropWhile isDig)

/-- Scan one base-10 integer for a %d verb: skip spaces, optional sign,
then at least one digit. -/
def scanInt (s : Str) : Option (Int × Str) :=
  match skipScanSpace s with
  | none => none
  | some s1 =>
    match parseSign s1 with
    | (neg, s2) =>
      match parseDigits s2 with
      | none => none
      | some (n, s3) => some (if neg then -(n : Int) else (n : Int), s3)

/-- fmt.Sscanf(s, "%d %d", &sz, &nf): scan two integers; input after the
second integer is left unconsumed and ignored.  none models (err != nil
or n != 2) in the source. -/
def sscanfTwoInts (s : Str) : Option (Int × Int) :=
  match scanInt s with
  | none => none
  | some (a, s1) =>
    match scanInt s1 with
    | none => none
    | some (b, _) => some (a, b)

/-- The character for a decimal digit value. -/
def digitChar : Nat → Char
  | 0 => '0'
  | 1 => '1'
  | 2 => '2'
  | 3 => '3'
  | 4 => '4'
  | 5 => '5'
  | 6 => '6'
  | 7 => '7'
  | 8 => '8'
  | 9 => '9'
  | _ + 10 => '?'

/-- Decimal digits of n, most significant first; the first argument is
fuel bounding the recursion depth (any fuel above n works). -/
def natToCharsAux : Nat → Nat → Str
  | 0, _ => []
  | fuel + 1, n =>
    if n < 10 then [digitChar n]
    else natToCharsAux fuel (n / 10) ++ [digitChar (n % 10)]

/-- Decimal representation of a natural number (fmt %d on a non-negative int). -/
def natToChars (n : Nat) : Str := natToCharsAux (n + 1) n

/-- fmt %d rendering of an int. -/
def intToChars (i : Int) : Str :=
  if i < 0 then '-' :: natToChars i.natAbs else natToChars i.natAbs

/-- fmt.Sprintf("%d %d\n", sz, nf): the on-disk payload of a size entry. -/
def encodePkgInfo (sz nf : Int) : Str :=
  intToChars sz ++ [' '] ++ intToChars nf ++ ['\n']

/-- Pkg holds the results of "go list -json" that the package decodes. -/
structure Pkg where
  Standard : Bool
  ImportPath : Str
  Root : Str
  Imports : List Str
deriving DecidableEq

/-- PkgInfo holds the approximate size estimates from "go build". -/
structure PkgInfo where
  Size : Int
  NumFuncs : Int
deriving DecidableEq

/-- The Cache struct: the two in-memory maps plus the construction data. -/
structure Cache where
  listcache : List (Str × Pkg)
  pkgsizecache : List (Str × PkgInfo)
  root : Str
  repohash : Str
  goroothash : Str
  vlevel : Int
deriving DecidableEq

/-- Error values returned by the package, by construction site; payloads
keep the data interpolated into the corresponding fmt.Errorf message. -/
inductive Err where
  | tokenWrite (p : Str)
  | cacheWrite (p : Str)
  | writingCache (e : Err)
  | problemsReading (e : Err)
  | goListFail (dir : Str)
  | unmarshalFail (dir : Str)
  | statFail (p : Str)
  | nmFail (p : Str)
  | buildFail (dir : Str)
  | sizeDecode (payload : Str)
deriving DecidableEq

/-- The external world: the out-of-process collaborators as deterministic
oracles, plus injected disk-write failures. -/
structure Env where
  goListOut : Str → Option Str
  unmarshalPkg : Str → Option Pkg
  goBuild : Str → Option Str
  nm : Str → Option Str
  diskWriteFails : Str → Bool

/-- const glopath = "=glo=", the reserved validity-token file name. -/
def glopathName : Str := ("=glo=").toList

/-- The expected token value: repohash + " " + goroothash. -/
def wantToken (c : Cache) : Str := c.repohash ++ [' '] ++ c.goroothash

/-- What writeToken stores: fmt.Fprintf(outf, "%s %s\n", repohash, goroothash). -/
def tokenFileContent (c : Cache) : Str := wantToken c ++ ['\n']

/-- writeToken: create or truncate the token file and write the hash pair. -/
def writeToken (env : Env) (c : Cache) (d : Disk) : Except Err Disk :=
  if env.diskWriteFails glopathName then .error (.tokenWrite glopathName)
  else .ok (setFile d glopathName (tokenFileContent c))

/-- checkValid: read the token (absence reads as empty), trim it, compare
with the expected hash pair; on mismatch wipe the root (RemoveAll + Mkdir)
and rewrite the token. -/
def checkValid (env : Env) (c : Cache) (d : Disk) : Except Err Unit × Disk :=
  if trimSpace ((getFile d glopathName).getD []) = wantToken c then (.ok (), d)
  else
    match writeToken env c [] with
    | .error e => (.error e, [])
    | .ok d1 => (.ok (), d1)

/-- cachePath: strings.ReplaceAll(dir, "/", "%"); the pattern is a single
character, so ReplaceAll is the character-wise substitution. -/
def encodeId (dir : Str) : Str := dir.map (fun ch => if ch = '/' then '%' else ch)

/-- The entry file name for (identifier, tag): dtag + "." + tag. -/
def cacheName (dir tag : Str) : Str := encodeId dir ++ ('.' :: tag)

/-- Tag of list entries. -/
def listTag : Str := ("list").toList

/-- Tag of size entries. -/
def buildTag : Str := ("build").toList

/-- Tag of the temporary built artifact. -/
def archiveTag : Str := ("archive").toList

/-- tryCache: run checkValid, then read the entry file; a missing entry is
(ok none), any other state of the entry is a hit with its raw bytes. -/
def tryCache (env : Env) (c : Cache) (d : Disk) (dir tag : Str) :
    Except Err (Option Str) × Disk :=
  match checkValid env c d with
  | (.error e, d1) => (.error (.problemsReading e), d1)
  | (.ok _, d1) =>
    match getFile d1 (cacheName dir tag) with
    | none => (.ok none, d1)
    | some contents => (.ok (some contents), d1)

/-- WriteCache: write the raw entry bytes to the entry file. -/
def WriteCache (env : Env) (d : Disk) (dir tag : Str) (content : Str) :
    Except Err Disk :=
  if env.diskWriteFails (cacheName dir tag) then
    .error (.cacheWrite (cacheName dir tag))
  else .ok (setFile d (cacheName dir tag) content)

/-- goListUncached: run "go list -json", then unmarshal its output. -/
def goListUncached (env : Env) (tgt : Str) : Except Err (Pkg × Str) :=
  match env.goListOut tgt with
  | none => .error (.goListFail tgt)
  | some out =>
    match env.unmarshalPkg out with
    | none => .error (.unmarshalFail tgt)
    | some pkg => .ok (pkg, out)

/-- GoList: memory map, then disk entry (after checkValid), then the
"go list" collaborator; a full miss populates memory before writing the
disk entry, a disk hit re-unmarshals the stored bytes. -/
def GoList (env : Env) (c : Cache) (d : Disk) (dir : Str) :
    Except Err Pkg × Cache × Disk :=
  match lookupA c.listcache dir with
  | some cpk => (.ok cpk, c, d)
  | none =>
    match tryCache env c d dir listTag with
    | (.error e, d1) => (.error e, c, d1)
    | (.ok none, d1) =>
      match goListUncached env dir with
      | .error e => (.error e, c, d1)
      | .ok (pk, out) =>
        let c1 := { c with listcache := setA c.listcache dir pk }
        match WriteCache env d1 dir listTag out with
        | .error e => (.error (.writingCache e), c1, d1)
        | .ok d2 => (.ok pk, c1, d2)
    | (.ok (some out), d1) =>
      match env.unmarshalPkg out with
      | none => (.error (.unmarshalFail dir), c, d1)
      | some pkg => (.ok pkg, { c with listcache := setA c.listcache dir pkg }, d1)

/-- One line of "go tool nm" output counts as a function when it has three
fields with the second equal to "T", or four fields with the third equal
to "T". -/
def lineIsFunc (line : Str) : Bool :=
  match fields line with
  | [_, m1, _] => m1 = ("T").toList
  | [_, _, m2, _] => m2 = ("T").toList
  | _ => false

/-- The function-count estimate over the whole nm output. -/
def countFuncs (out : Str) : Int := (((splitOnNl out).filter lineIsFunc).length : Int)

/-- computePkgInfo: stat the built artifact for its size, run "go tool nm"
on it for the function count, and render "size funcs\n". -/
def computePkgInfo (env : Env) (d : Disk) (apath : Str) : Except Err Str :=
  match getFile d apath with
  | none => .error (.statFail apath)
  | some content =>
    match env.nm content with
    | none => .error (.nmFail apath)
    | some out => .ok (encodePkgInfo (content.length : Int) (countFuncs out))

/-- The shared tail of PkgSize: Sscanf the payload into the two counters
and, on success, populate the size memory map. -/
def unpackSize (c : Cache) (dir : Str) (out : Str) (d : Disk) :
    Except Err PkgInfo × Cache × Disk :=
  match sscanfTwoInts out with
  | none => (.error (.sizeDecode out), c, d)
  | some (sz, nf) =>
    (.ok { Size := sz, NumFuncs := nf },
     { c with pkgsizecache := setA c.pkgsizecache dir { Size := sz, NumFuncs := nf } },
     d)

/-- PkgSize: the "unsafe" special case, then memory, then disk entry, then
build-and-measure; on a full miss the artifact is built at the ".archive"
path, measured, the payload written to the ".build" entry, the artifact
removed, and the payload scanned into memory. -/
def PkgSize (env : Env) (c : Cache) (d : Disk) (dir : Str) :
    Except Err PkgInfo × Cache × Disk :=
  if dir = ("unsafe").toList then (.ok { Size := 1, NumFuncs := 0 }, c, d)
  else
    match lookupA c.pkgsizecache dir with
    | some cachedv => (.ok cachedv, c, d)
    | none =>
      match tryCache env c d dir buildTag with
      | (.error e, d1) => (.error e, c, d1)
      | (.ok (some out), d1) => unpackSize c dir out d1
      | (.ok none, d1) =>
        let outfile := cacheName dir archiveTag
        let d2 := eraseFile d1 outfile
        match env.goBuild dir with
        | none => (.error (.buildFail dir), c, d2)
        | some artifact =>
          let d3 := setFile d2 outfile artifact
          match computePkgInfo env d3 outfile with
          | .error e => (.error e, c, d3)
          | .ok payload =>
            match WriteCache env d3 dir buildTag payload with
            | .error e => (.error (.writingCache e), c, d3)
            | .ok d4 => unpackSize c dir payload (eraseFile d4 outfile)

/-- A freshly constructed Cache record, before the validity check. -/
def mkCache (repohash goroothash root : Str) (vlevel : Int) : Cache :=
  { listcache := [], pkgsizecache := [], root := root,
    repohash := repohash, goroothash := goroothash, vlevel := vlevel }

/-- Make: ensure the root directory exists, build the Cache record, and run
the validity check before returning it. -/
def Make (env : Env) (repohash goroothash root : Str) (vlevel : Int) (d : Disk) :
    Except Err Cache × Disk :=
  match checkValid env (mkCache repohash goroothash root vlevel) d with
  | (.error e, d1) => (.error e, d1)
  | (.ok _, d1) => (.ok (mkCache repohash goroothash root vlevel), d1)

/-- The validity condition checkValid tests: the trimmed token file content
(absence reading as empty) equals the expected hash pair. -/
abbrev tokenOk (c : Cache) (d : Disk) : Prop :=
  trimSpace ((getFile d glopathName).getD []) = wantToken c

/-! Concrete fixtures used to witness the theorems: a cache over hashes
"h"/"g", an environment in which the identifier "io" lists, builds and
measures successfully, and a disk holding a matching validity token. -/

/-- The identifier used by the concrete fixtures. -/
def ioW : Str := ("io").toList

/-- The raw "go list -json" bytes the fixture environment produces. -/
def jsonW : Str := ("JSON").toList

/-- The decoded Pkg the fixture environment produces for those bytes. -/
def pkgIoW : Pkg :=
  { Standard := true, ImportPath := ioW, Root := ("GOROOT").toList, Imports := [] }

/-- The built-artifact bytes of the fixture (2 bytes, so Size = 2). -/
def artW : Str := ("AR").toList

/-- The nm output of the fixture: one line with three fields, middle "T". -/
def nmOutW : Str := ("a T f\n").toList

/-- A fully successful environment for the identifier "io". -/
def envW : Env :=
  { goListOut := fun t => if t = ioW then some jsonW else none
    unmarshalPkg := fun b => if b = jsonW then some pkgIoW else none
    goBuild := fun t => if t = ioW then some artW else none
    nm := fun b => if b = artW then some nmOutW else none
    diskWriteFails := fun _ => false }

/-- An environment whose collaborators all fail and whose writes all fail:
used to show results served from memory depend on neither. -/
def envNone : Env :=
  { goListOut := fun _ => none
    unmarshalPkg := fun _ => none
    goBuild := fun _ => none
    nm := fun _ => none
    diskWriteFails := fun _ => true }

/-- The fixture cache, constructed over hashes "h" and "g". -/
def cW : Cache := mkCache (("h").toList) (("g").toList) (("root").toList) 0

/-- A disk whose validity token matches the fixture cache. -/
def dW : Disk := [(glopathName, ("h g\n").toList)]

/-- A disk with a stale validity token and a pre-existing list entry. -/
def dStale : Disk :=
  [(glopathName, ("stale").toList), (cacheName ioW listTag, ("OLD").toList)]

/-- The fixture environment with a failing list collaborator. -/
def envFailList : Env := { envW with goListOut := fun _ => none }

/-- The fixture environment with a failing build collaborator. -/
def envFailBuild : Env := { envW with goBuild := fun _ => none }

/-- The fixture environment with a failing symbol inspector. -/
def envFailNm : Env := { envW with nm := fun _ => none }

/-- The fixture environment in which every disk write fails. -/
def envFailWr : Env := { envW with diskWriteFails := fun _ => true }

/-- A cache built over two empty hashes: the expected token is a single
space, which no trimmed token can ever equal. -/
def cEmptyHashes : Cache := mkCache [] [] (("root").toList) 0

/-- A matching token plus a list entry that does not unmarshal. -/
def dBadList : Disk :=
  [(glopathName, ("h g\n").toList), (cacheName ioW listTag, ("BAD").toList)]

/-- A matching token plus a size entry that does not scan as two integers. -/
def dBadSize : Disk :=
  [(glopathName, ("h g\n").toList), (cacheName ioW buildTag, ("x y").toList)]

/-- The memory state after the fixture list query. -/
def cListW : Cache := { cW with listcache := [(ioW, pkgIoW)] }

/-- The fixture size result for "io": two bytes, one function. -/
def piIoW : PkgInfo := { Size := 2, NumFuncs := 1 }

/-- The memory state after the fixture size query. -/
def cSizeW : Cache := { cW with pkgsizecache := [(ioW, piIoW)] }

/-- The disk after the fixture list query writes its entry. -/
def dListW : Disk := (cacheName ioW listTag, jsonW) :: dW

/-- The disk after the fixture size query writes its entry. -/
def dSizeW : Disk := (cacheName ioW buildTag, ("2 1\n").toList) :: dW

/-! Association-list and file-name lemmas. -/

theorem lookupA_setA_self {α : Type} (m : List (Str × α)) (k : Str) (v : α) :
    lookupA (setA m k v) k = some v := by
  unfold setA lookupA
  rw [if_pos rfl]

theorem getFile_setFile_self (d : Disk) (k v : Str) :
    getFile (setFile d k v) k = some v := by
  unfold getFile setFile lookupA
  rw [if_pos rfl]

theorem getFile_setFile_ne (d : Disk) (k k' v : Str) (h : ¬ k = k') :
    getFile (setFile d k v) k' = getFile d k' := by
  unfold getFile setFile
  conv_lhs => unfold lookupA
  rw [if_neg h]

theorem getFile_eraseFile_ne (d : Disk) (k k' : Str) (h : ¬ k' = k) :
    getFile (eraseFile d k) k' = getFile d k' := by
  induction d with
  | nil => rfl
  | cons p rest ih =>
    obtain ⟨k2, v⟩ := p
    unfold eraseFile
    by_cases h2 : k2 = k
    · rw [if_pos h2, ih]
      have hne : ¬ k2 = k' := by
        rw [h2]
        intro hc
        exact h hc.symm
      conv_rhs => unfold getFile lookupA
      rw [if_neg hne]
      rfl
    · rw [if_neg h2]
      unfold getFile lookupA
      by_cases h3 : k2 = k'
      · rw [if_pos h3, if_pos h3]
      · rw [if_neg h3, if_neg h3]
        exact ih

theorem eraseFile_of_getFile_none (d : Disk) (k : Str) (h : getFile d k = none) :
    eraseFile d k = d := by
  induction d with
  | nil => rfl
  | cons p rest ih =>
    obtain ⟨k2, v⟩ := p
    unfold getFile lookupA at h
    by_cases h2 : k2 = k
    · rw [if_pos h2] at h
      exact absurd h (by simp)
    · rw [if_neg h2] at h
      unfold eraseFile
      rw [if_neg h2, ih h]

theorem cacheName_ne_glopath (dir tag : Str) : ¬ cacheName dir tag = glopathName := by
  intro h
  have hdot : '.' ∈ glopathName := by
    rw [← h]
    unfold cacheName
    exact List.mem_append.mpr (Or.inr (by simp))
  revert hdot
  decide

theorem cacheName_tag_ne (dir t1 t2 : Str) (hne : ¬ t1 = t2) :
    ¬ cacheName dir t1 = cacheName dir t2 := by
  intro h
  unfold cacheName at h
  have h2 := List.append_cancel_left h
  injection h2 with _ h3
  exact hne h3

/-! Lemmas about dropSp and trimSpace. -/

theorem dropSp_cons (c : Char) (cs : Str) :
    dropSp (c :: cs) = if isGoSpace c then dropSp cs else c :: cs := rfl

theorem dropSp_head_false (s : Str) (c : Char) (cs : Str) (h : dropSp s = c :: cs) :
    isGoSpace c = false := by
  induction s with
  | nil => simp [dropSp] at h
  | cons a t ih =>
    rw [dropSp_cons] at h
    by_cases ha : isGoSpace a
    · rw [if_pos ha] at h
      exact ih h
    · rw [if_neg ha] at h
      injection h with h1 _
      subst h1
      simpa using ha

theorem dropSp_idem (s : Str) : dropSp (dropSp s) = dropSp s := by
  cases hd : dropSp s with
  | nil => rfl
  | cons c cs =>
    rw [dropSp_cons, dropSp_head_false s c cs hd]
    simp

theorem dropSp_append_single (xs : Str) (c : Char) (hc : isGoSpace c = false) :
    dropSp (xs ++ [c]) = dropSp xs ++ [c] := by
  induction xs with
  | nil => simp [dropSp, hc]
  | cons a t ih =>
    by_cases ha : isGoSpace a
    · rw [List.cons_append, dropSp_cons, if_pos ha, ih, dropSp_cons, if_pos ha]
    · rw [List.cons_append, dropSp_cons, if_neg ha, dropSp_cons, if_neg ha,
        List.cons_append]

theorem length_dropSp_le (s : Str) : (dropSp s).length ≤ s.length := by
  induction s with
  | nil => exact Nat.le_refl _
  | cons a t ih =>
    rw [dropSp_cons]
    by_cases ha : isGoSpace a
    · rw [if_pos ha]
      exact Nat.le_trans ih (Nat.le_succ _)
    · rw [if_neg ha]

theorem dropSp_eq_of_length (s : Str) (h : (dropSp s).length = s.length) :
    dropSp s = s := by
  induction s with
  | nil => rfl
  | cons a t ih =>
    rw [dropSp_cons] at h ⊢
    by_cases ha : isGoSpace a
    · rw [if_pos ha] at h ⊢
      exfalso
      have := length_dropSp_le t
      rw [List.length_cons] at h
      omega
    · rw [if_neg ha]

theorem trimSpace_nil_of (s : Str) (hu : dropSp s = []) : trimSpace s = [] := by
  unfold trimSpace
  rw [hu]
  rfl

theorem trimSpace_shape (s : Str) (c : Char) (cs : Str) (hu : dropSp s = c :: cs) :
    trimSpace s = c :: (dropSp cs.reverse).reverse := by
  unfold trimSpace
  rw [hu, List.reverse_cons, dropSp_append_single _ _ (dropSp_head_false s c cs hu),
    List.reverse_append]
  simp

theorem trimSpace_idem (s : Str) : trimSpace (trimSpace s) = trimSpace s := by
  cases hu : dropSp s with
  | nil => rw [trimSpace_nil_of s hu, trimSpace_nil_of [] rfl]
  | cons c cs =>
    have hc := dropSp_head_false s c cs hu
    rw [trimSpace_shape s c cs hu]
    have hfix : dropSp (c :: (dropSp cs.reverse).reverse) =
        c :: (dropSp cs.reverse).reverse := by
      rw [dropSp_cons, hc]
      simp
    rw [trimSpace_shape _ c _ hfix]
    rw [List.reverse_reverse, dropSp_idem]

theorem dropSp_of_trimSpace_fix (s : Str) (h : trimSpace s = s) :
    dropSp s = s ∧ dropSp s.reverse = s.reverse := by
  cases hu : dropSp s with
  | nil =>
    have h0 : s = [] := by rw [← h, trimSpace_nil_of s hu]
    subst h0
    exact ⟨rfl, rfl⟩
  | cons c cs =>
    have hc := dropSp_head_false s c cs hu
    have hs : s = c :: (dropSp cs.reverse).reverse := by
      rw [← h, trimSpace_shape s c cs hu]
    have hlen2 : (dropSp cs.reverse).length ≤ cs.length := by
      have := length_dropSp_le cs.reverse
      rw [List.length_reverse] at this
      exact this
    have hlens : s.length = (dropSp cs.reverse).length + 1 := by
      rw [hs]
      simp
    have hlencs : s.length ≥ cs.length + 1 := by
      have h1 := length_dropSp_le s
      rw [hu, List.length_cons] at h1
      omega
    have hfix2 : dropSp cs.reverse = cs.reverse := by
      apply dropSp_eq_of_length
      rw [List.length_reverse]
      omega
    have hs2 : s = c :: cs := by
      rw [hs, hfix2, List.reverse_reverse]
    constructor
    · exact hs2.symm
    · rw [hs2, List.reverse_cons, dropSp_append_single _ _ hc, hfix2]

theorem trimSpace_append_nl (s : Str) (h : trimSpace s = s) :
    trimSpace (s ++ ['\n']) = s := by
  obtain ⟨h1, h2⟩ := dropSp_of_trimSpace_fix s h
  cases s with
  | nil => decide
  | cons a t =>
    have ha : isGoSpace a = false := by
      by_cases hcontra : isGoSpace a
      · rw [dropSp_cons, if_pos hcontra] at h1
        have hle := length_dropSp_le t
        have hlen := congrArg List.length h1
        rw [List.length_cons] at hlen
        omega
      · simpa using hcontra
    unfold trimSpace
    have hd1 : dropSp ((a :: t) ++ ['\n']) = (a :: t) ++ ['\n'] := by
      rw [List.cons_append, dropSp_cons, if_neg (by simp [ha])]
    rw [hd1, List.reverse_append]
    have hnl : dropSp (['\n'].reverse ++ (a :: t).reverse) = (a :: t).reverse := by
      have : ['\n'].reverse ++ (a :: t).reverse = '\n' :: (a :: t).reverse := rfl
      rw [this, dropSp_cons, if_pos (by decide)]
      exact h2
    rw [hnl, List.reverse_reverse]

/-! Lemmas about decimal rendering and the two-integer scanner. -/

theorem digitChar_isDig (d : Nat) (h : d < 10) : isDig (digitChar d) = true := by
  interval_cases d <;> decide

theorem digitChar_toNat (d : Nat) (h : d < 10) : (digitChar d).toNat = 48 + d := by
  interval_cases d <;> decide

theorem natToCharsAux_spec (fuel : Nat) : ∀ n : Nat, n < fuel →
    (∀ c ∈ natToCharsAux fuel n, isDig c = true) ∧
    ¬ natToCharsAux fuel n = [] ∧
    digitsVal (natToCharsAux fuel n) = n := by
  induction fuel with
  | zero => intro n h; omega
  | succ f ih =>
    intro n h
    by_cases h10 : n < 10
    · simp only [natToCharsAux, if_pos h10]
      refine ⟨?_, by simp, ?_⟩
      · intro c hc
        simp at hc
        subst hc
        exact digitChar_isDig n h10
      · simp [digitsVal, digitChar_toNat n h10]
    · simp only [natToCharsAux, if_neg h10]
      have hlt : n / 10 < f := by omega
      obtain ⟨hdig, hne, hval⟩ := ih (n / 10) hlt
      refine ⟨?_, by simp, ?_⟩
      · intro c hc
        rcases List.mem_append.mp hc with hx | hx
        · exact hdig c hx
        · simp at hx
          subst hx
          exact digitChar_isDig _ (Nat.mod_lt _ (by omega))
      · unfold digitsVal at hval ⊢
        rw [List.foldl_append, hval, List.foldl_cons, List.foldl_nil,
          digitChar_toNat _ (Nat.mod_lt _ (by omega))]
        omega

theorem natToChars_spec (n : Nat) :
    (∀ c ∈ natToChars n, isDig c = true) ∧
    ¬ natToChars n = [] ∧
    digitsVal (natToChars n) = n :=
  natToCharsAux_spec (n + 1) n (by omega)

theorem takeWhile_append_all (p : Char → Bool) : ∀ (ds rest : Str),
    (∀ c ∈ ds, p c = true) → (∀ c cs, rest = c :: cs → p c = false) →
    (ds ++ rest).takeWhile p = ds ∧ (ds ++ rest).dropWhile p = rest := by
  intro ds
  induction ds with
  | nil =>
    intro rest hall hrest
    cases rest with
    | nil => simp
    | cons c cs =>
      have hc := hrest c cs rfl
      simp [List.takeWhile_cons, List.dropWhile_cons, hc]
  | cons a t ih =>
    intro rest hall hrest
    have ha : p a = true := hall a (by simp)
    obtain ⟨h1, h2⟩ := ih rest (fun c hc => hall c (by simp [hc])) hrest
    simp [List.takeWhile_cons, List.dropWhile_cons, ha, h1, h2]

theorem parseDigits_append (ds rest : Str) (hall : ∀ c ∈ ds, isDig c = true)
    (hne : ¬ ds = []) (hrest : ∀ c cs, rest = c :: cs → isDig c = false) :
    parseDigits (ds ++ rest) = some (digitsVal ds, rest) := by
  obtain ⟨h1, h2⟩ := takeWhile_append_all isDig ds rest hall hrest
  unfold parseDigits
  simp only [h1, h2]
  rw [if_neg hne]

theorem skipScanSpace_stop (c : Char) (cs : Str) (h43 : 43 ≤ c.toNat)
    (h57 : c.toNat ≤ 57) : skipScanSpace (c :: cs) = some (c :: cs) := by
  simp only [skipScanSpace]
  rw [if_neg (by omega), if_neg (by omega)]

theorem skipScanSpace_cons_space (s : Str) :
    skipScanSpace (' ' :: s) = skipScanSpace s := by
  conv_lhs => simp only [skipScanSpace]
  rw [if_neg (by decide), if_pos (by decide)]

theorem scanInt_cons_space (s : Str) : scanInt (' ' :: s) = scanInt s := by
  unfold scanInt
  rw [skipScanSpace_cons_space]

theorem parseSign_digit (c : Char) (cs : Str) (h : isDig c = true) :
    parseSign (c :: cs) = (false, c :: cs) := by
  have h48 : 48 ≤ c.toNat ∧ c.toNat ≤ 57 := by simpa [isDig] using h
  have hm : ¬ c = '-' := by
    intro he
    subst he
    revert h48
    decide
  have hp : ¬ c = '+' := by
    intro he
    subst he
    revert h48
    decide
  simp only [parseSign]
  rw [if_neg hm, if_neg hp]

theorem scanInt_of_parts (s s1 s2 : Str) (neg : Bool) (n : Nat) (s3 : Str)
    (hskip : skipScanSpace s = some s1)
    (hsign : parseSign s1 = (neg, s2))
    (hdigs : parseDigits s2 = some (n, s3)) :
    scanInt s = some (if neg then -(n : Int) else (n : Int), s3) := by
  unfold scanInt
  rw [hskip]
  simp only [hsign, hdigs]

theorem scanInt_intToChars (i : Int) (rest : Str)
    (hrest : ∀ c cs, rest = c :: cs → isDig c = false) :
    scanInt (intToChars i ++ rest) = some (i, rest) := by
  obtain ⟨hdig, hne, hval⟩ := natToChars_spec i.natAbs
  unfold intToChars
  by_cases hneg : i < 0
  · rw [if_pos hneg, List.cons_append]
    have hps : parseSign ('-' :: (natToChars i.natAbs ++ rest)) =
        (true, natToChars i.natAbs ++ rest) := by
      simp [parseSign]
    rw [scanInt_of_parts _ _ _ true i.natAbs rest
      (skipScanSpace_stop '-' _ (by decide) (by decide)) hps
      (by rw [parseDigits_append _ _ hdig hne hrest, hval])]
    have hi : -(i.natAbs : Int) = i := by omega
    rw [if_pos rfl, hi]
  · rw [if_neg hneg]
    cases hnc : natToChars i.natAbs with
    | nil => exact absurd hnc hne
    | cons c cs =>
      have hc : isDig c = true := hdig c (by rw [hnc]; simp)
      have hc2 : 48 ≤ c.toNat ∧ c.toNat ≤ 57 := by simpa [isDig] using hc
      have hpd : parseDigits ((c :: cs) ++ rest) = some (i.natAbs, rest) := by
        have hall : ∀ x ∈ c :: cs, isDig x = true := by
          rw [← hnc]
          exact hdig
        have := parseDigits_append (c :: cs) rest hall (by simp) hrest
        rw [this, ← hnc, hval]
      rw [List.cons_append]
      rw [scanInt_of_parts _ _ _ false i.natAbs rest
        (skipScanSpace_stop c _ (by omega) (by omega))
        (parseSign_digit c _ hc)
        (by rw [← List.cons_append, hpd])]
      have hi : (i.natAbs : Int) = i := by omega
      rw [if_neg (by simp), hi]

theorem sscanf_roundtrip (sz nf : Int) :
    sscanfTwoInts (encodePkgInfo sz nf) = some (sz, nf) := by
  unfold encodePkgInfo sscanfTwoInts
  rw [List.append_assoc, List.append_assoc]
  have h1 : scanInt (intToChars sz ++ ([' '] ++ (intToChars nf ++ ['\n']))) =
      some (sz, [' '] ++ (intToChars nf ++ ['\n'])) := by
    apply scanInt_intToChars
    intro c cs h
    injection h with h1 _
    subst h1
    decide
  have h2 : scanInt ([' '] ++ (intToChars nf ++ ['\n'])) =
      some (nf, ['\n']) := by
    rw [List.singleton_append, scanInt_cons_space]
    apply scanInt_intToChars
    intro c cs h
    injection h with h1 _
    subst h1
    decide
  simp only [h1, h2]

/-! Operation-level lemmas. -/

theorem checkValid_of_tokenOk (env : Env) (c : Cache) (d : Disk) (h : tokenOk c d) :
    checkValid env c d = (.ok (), d) := by
  unfold checkValid
  rw [if_pos h]

theorem checkValid_wipe (env : Env) (c : Cache) (d : Disk) (h : ¬ tokenOk c d)
    (hw : env.diskWriteFails glopathName = false) :
    checkValid env c d = (.ok (), [(glopathName, tokenFileContent c)]) := by
  unfold checkValid writeToken
  rw [if_neg h, hw]
  simp [setFile]

theorem tryCache_of_tokenOk (env : Env) (c : Cache) (d : Disk) (dir tag : Str)
    (h : tokenOk c d) :
    tryCache env c d dir tag = (.ok (getFile d (cacheName dir tag)), d) := by
  unfold tryCache
  rw [checkValid_of_tokenOk env c d h]
  cases hg : getFile d (cacheName dir tag) <;> simp [hg]

theorem wantToken_mkCache (r g root : Str) (v : Int) :
    wantToken (mkCache r g root v) = r ++ [' '] ++ g := rfl

theorem goList_mem_of_ok (env : Env) (c : Cache) (d : Disk) (dir : Str) (p : Pkg)
    (c' : Cache) (d' : Disk) (h : GoList env c d dir = (.ok p, c', d')) :
    lookupA c'.listcache dir = some p := by
  unfold GoList at h
  cases hm : lookupA c.listcache dir with
  | some q =>
    rw [hm] at h
    simp at h
    obtain ⟨h1, h2, h3⟩ := h
    rw [← h2, hm, h1]
  | none =>
    rw [hm] at h
    cases htc : tryCache env c d dir listTag with
    | mk res d1 =>
      rw [htc] at h
      cases res with
      | error e => simp at h
      | ok oo =>
        cases oo with
        | none =>
          cases hg : goListUncached env dir with
          | error e => simp [hg] at h
          | ok pr =>
            obtain ⟨pk, out⟩ := pr
            cases hw : WriteCache env d1 dir listTag out with
            | error e => simp [hg, hw] at h
            | ok d2 =>
              simp [hg, hw] at h
              obtain ⟨h1, h2, h3⟩ := h
              rw [← h2, ← h1]
              exact lookupA_setA_self c.listcache dir pk
        | some out =>
          cases hu : env.unmarshalPkg out with
          | none => simp [hu] at h
          | some pkg =>
            simp [hu] at h
            obtain ⟨h1, h2, h3⟩ := h
            rw [← h2, ← h1]
            exact lookupA_setA_self c.listcache dir pkg

theorem checkValid_wipe_fail (env : Env) (c : Cache) (d : Disk) (h : ¬ tokenOk c d)
    (hw : env.diskWriteFails glopathName = true) :
    checkValid env c d = (.error (.tokenWrite glopathName), []) := by
  unfold checkValid writeToken
  rw [if_neg h, hw]
  simp

theorem getFile_wiped_entry (c : Cache) (dir tag : Str) :
    getFile [(glopathName, tokenFileContent c)] (cacheName dir tag) = none := by
  unfold getFile lookupA
  rw [if_neg (fun hh => cacheName_ne_glopath dir tag hh.symm)]
  rfl

theorem tryCache_wipe (env : Env) (c : Cache) (d : Disk) (dir tag : Str)
    (h : ¬ tokenOk c d) (hw : env.diskWriteFails glopathName = false) :
    tryCache env c d dir tag = (.ok none, [(glopathName, tokenFileContent c)]) := by
  unfold tryCache
  rw [checkValid_wipe env c d h hw]
  simp [getFile_wiped_entry]

theorem tryCache_wipe_fail (env : Env) (c : Cache) (d : Disk) (dir tag : Str)
    (h : ¬ tokenOk c d) (hw : env.diskWriteFails glopathName = true) :
    tryCache env c d dir tag =
      (.error (.problemsReading (.tokenWrite glopathName)), []) := by
  unfold tryCache
  rw [checkValid_wipe_fail env c d h hw]

theorem goListUncached_ok_inv (env : Env) (tgt : Str) (pk : Pkg) (out : Str)
    (h : goListUncached env tgt = .ok (pk, out)) :
    env.goListOut tgt = some out ∧ env.unmarshalPkg out = some pk := by
  unfold goListUncached at h
  cases hg : env.goListOut tgt with
  | none =>
    rw [hg] at h
    simp at h
  | some o =>
    rw [hg] at h
    cases hu : env.unmarshalPkg o with
    | none => simp [hu] at h
    | some q =>
      simp [hu] at h
      obtain ⟨h1, h2⟩ := h
      subst h1
      subst h2
      exact ⟨rfl, hu⟩

theorem writeCache_ok_inv (env : Env) (d : Disk) (dir tag content : Str) (d2 : Disk)
    (h : WriteCache env d dir tag content = .ok d2) :
    env.diskWriteFails (cacheName dir tag) = false ∧
    d2 = setFile d (cacheName dir tag) content := by
  unfold WriteCache at h
  cases hw : env.diskWriteFails (cacheName dir tag) with
  | true =>
    rw [hw] at h
    simp at h
  | false =>
    rw [hw] at h
    simp at h
    exact ⟨rfl, h.symm⟩

theorem goList_miss_inv (env : Env) (c : Cache) (d : Disk) (dir : Str) (p : Pkg)
    (c' : Cache) (d' : Disk) (hm : lookupA c.listcache dir = none)
    (h : GoList env c d dir = (.ok p, c', d')) :
    ∃ out, getFile d' (cacheName dir listTag) = some out ∧
      env.unmarshalPkg out = some p ∧
      c' = { c with listcache := setA c.listcache dir p } ∧
      ((getFile d' glopathName = getFile d glopathName ∧ tokenOk c d) ∨
       getFile d' glopathName = some (tokenFileContent c)) := by
  unfold GoList at h
  rw [hm] at h
  by_cases htok : tokenOk c d
  · rw [tryCache_of_tokenOk env c d dir listTag htok] at h
    cases hfile : getFile d (cacheName dir listTag) with
    | none =>
      rw [hfile] at h
      cases hg : goListUncached env dir with
      | error e => simp [hg] at h
      | ok pr =>
        obtain ⟨pk, out⟩ := pr
        obtain ⟨hglo, hum⟩ := goListUncached_ok_inv env dir pk out hg
        cases hwrite : WriteCache env d dir listTag out with
        | error e => simp [hg, hwrite] at h
        | ok d2 =>
          obtain ⟨hwf, hd2⟩ := writeCache_ok_inv env d dir listTag out d2 hwrite
          simp [hg, hwrite] at h
          obtain ⟨h1, h2, h3⟩ := h
          subst h1
          refine ⟨out, ?_, hum, h2.symm, Or.inl ⟨?_, htok⟩⟩
          · rw [← h3, hd2]
            exact getFile_setFile_self d (cacheName dir listTag) out
          · rw [← h3, hd2]
            exact getFile_setFile_ne d _ _ out (cacheName_ne_glopath dir listTag)
    | some out =>
      rw [hfile] at h
      cases hu : env.unmarshalPkg out with
      | none => simp [hu] at h
      | some pkg =>
        simp [hu] at h
        obtain ⟨h1, h2, h3⟩ := h
        subst h1
        refine ⟨out, ?_, hu, h2.symm, Or.inl ⟨?_, htok⟩⟩
        · rw [← h3]
          exact hfile
        · rw [← h3]
  · cases hwf : env.diskWriteFails glopathName with
    | true =>
      rw [tryCache_wipe_fail env c d dir listTag htok hwf] at h
      simp at h
    | false =>
      rw [tryCache_wipe env c d dir listTag htok hwf] at h
      cases hg : goListUncached env dir with
      | error e => simp [hg] at h
      | ok pr =>
        obtain ⟨pk, out⟩ := pr
        obtain ⟨hglo, hum⟩ := goListUncached_ok_inv env dir pk out hg
        cases hwrite : WriteCache env [(glopathName, tokenFileContent c)] dir listTag out with
        | error e => simp [hg, hwrite] at h
        | ok d2 =>
          obtain ⟨hwf2, hd2⟩ := writeCache_ok_inv env _ dir listTag out d2 hwrite
          simp [hg, hwrite] at h
          obtain ⟨h1, h2, h3⟩ := h
          subst h1
          refine ⟨out, ?_, hum, h2.symm, Or.inr ?_⟩
          · rw [← h3, hd2]
            exact getFile_setFile_self _ (cacheName dir listTag) out
          · rw [← h3, hd2, getFile_setFile_ne _ _ _ out (cacheName_ne_glopath dir listTag)]
            unfold getFile lookupA
            rw [if_pos rfl]

theorem getFile_eraseFile_self (d : Disk) (k : Str) :
    getFile (eraseFile d k) k = none := by
  induction d with
  | nil => rfl
  | cons p rest ih =>
    obtain ⟨k2, v⟩ := p
    unfold eraseFile
    by_cases h2 : k2 = k
    · rw [if_pos h2]
      exact ih
    · rw [if_neg h2]
      unfold getFile lookupA
      rw [if_neg h2]
      exact ih

theorem unpackSize_ok_inv (c : Cache) (dir out : Str) (d : Disk) (q : PkgInfo)
    (c' : Cache) (d' : Disk) (h : unpackSize c dir out d = (.ok q, c', d')) :
    sscanfTwoInts out = some (q.Size, q.NumFuncs) ∧
    c' = { c with pkgsizecache := setA c.pkgsizecache dir q } ∧ d' = d := by
  unfold unpackSize at h
  cases hs : sscanfTwoInts out with
  | none =>
    rw [hs] at h
    simp at h
  | some pr =>
    obtain ⟨sz, nf⟩ := pr
    rw [hs] at h
    simp at h
    obtain ⟨h1, h2, h3⟩ := h
    subst h3
    subst h1
    subst h2
    exact ⟨rfl, rfl, rfl⟩

theorem computePkgInfo_eval (env : Env) (d : Disk) (apath content : Str)
    (hg : getFile d apath = some content) :
    computePkgInfo env d apath =
      match env.nm content with
      | none => .error (.nmFail apath)
      | some out => .ok (encodePkgInfo (content.length : Int) (countFuncs out)) := by
  unfold computePkgInfo
  rw [hg]

theorem pkgSize_of_ok (env : Env) (c : Cache) (d : Disk) (dir : Str) (q : PkgInfo)
    (c' : Cache) (d' : Disk) (h : PkgSize env c d dir = (.ok q, c', d')) :
    (dir = ("unsafe").toList ∧ q = { Size := 1, NumFuncs := 0 } ∧ c' = c) ∨
    lookupA c'.pkgsizecache dir = some q := by
  unfold PkgSize at h
  by_cases hus : dir = ("unsafe").toList
  · rw [if_pos hus] at h
    simp at h
    obtain ⟨h1, h2, h3⟩ := h
    exact Or.inl ⟨hus, h1.symm, h2.symm⟩
  · rw [if_neg hus] at h
    right
    cases hm : lookupA c.pkgsizecache dir with
    | some v =>
      rw [hm] at h
      simp at h
      obtain ⟨h1, h2, h3⟩ := h
      rw [← h2, hm, h1]
    | none =>
      rw [hm] at h
      cases htc : tryCache env c d dir buildTag with
      | mk res d1 =>
        rw [htc] at h
        cases res with
        | error e => simp at h
        | ok oo =>
          cases oo with
          | some out =>
            have hred : unpackSize c dir out d1 = (.ok q, c', d') := by
              rw [← h]
            obtain ⟨hs, hc, hd⟩ := unpackSize_ok_inv c dir out d1 q c' d' hred
            rw [hc]
            exact lookupA_setA_self c.pkgsizecache dir q
          | none =>
            cases hbuild : env.goBuild dir with
            | none => simp [hbuild] at h
            | some artifact =>
              cases hcp : computePkgInfo env
                  (setFile (eraseFile d1 (cacheName dir archiveTag))
                    (cacheName dir archiveTag) artifact)
                  (cacheName dir archiveTag) with
              | error e => simp [hbuild, hcp] at h
              | ok payload =>
                cases hwrite : WriteCache env
                    (setFile (eraseFile d1 (cacheName dir archiveTag))
                      (cacheName dir archiveTag) artifact)
                    dir buildTag payload with
                | error e => simp [hbuild, hcp, hwrite] at h
                | ok d4 =>
                  have hred : unpackSize c dir payload
                      (eraseFile d4 (cacheName dir archiveTag)) = (.ok q, c', d') := by
                    rw [← h]
                    simp [hbuild, hcp, hwrite]
                  obtain ⟨hs, hc, hd⟩ :=
                    unpackSize_ok_inv c dir payload _ q c' d' hred
                  rw [hc]
                  exact lookupA_setA_self c.pkgsizecache dir q

theorem buildName_ne_archiveName (dir : Str) :
    ¬ cacheName dir buildTag = cacheName dir archiveTag :=
  cacheName_tag_ne dir buildTag archiveTag (by decide)

theorem pkgSize_miss_inv (env : Env) (c : Cache) (d : Disk) (dir : Str) (q : PkgInfo)
    (c' : Cache) (d' : Disk) (hus : ¬ dir = ("unsafe").toList)
    (hm : lookupA c.pkgsizecache dir = none)
    (h : PkgSize env c d dir = (.ok q, c', d')) :
    ∃ out, getFile d' (cacheName dir buildTag) = some out ∧
      sscanfTwoInts out = some (q.Size, q.NumFuncs) ∧
      c' = { c with pkgsizecache := setA c.pkgsizecache dir q } ∧
      ((getFile d' glopathName = getFile d glopathName ∧ tokenOk c d) ∨
       getFile d' glopathName = some (tokenFileContent c)) := by
  unfold PkgSize at h
  rw [if_neg hus, hm] at h
  by_cases htok : tokenOk c d
  · rw [tryCache_of_tokenOk env c d dir buildTag htok] at h
    cases hfile : getFile d (cacheName dir buildTag) with
    | some out =>
      rw [hfile] at h
      have hred : unpackSize c dir out d = (.ok q, c', d') := by
        rw [← h]
      obtain ⟨hs, hc, hd⟩ := unpackSize_ok_inv c dir out d q c' d' hred
      subst hd
      exact ⟨out, hfile, hs, hc, Or.inl ⟨rfl, htok⟩⟩
    | none =>
      rw [hfile] at h
      cases hbuild : env.goBuild dir with
      | none => simp [hbuild] at h
      | some artifact =>
        cases hcp : computePkgInfo env
            (setFile (eraseFile d (cacheName dir archiveTag))
              (cacheName dir archiveTag) artifact)
            (cacheName dir archiveTag) with
        | error e => simp [hbuild, hcp] at h
        | ok payload =>
          cases hwrite : WriteCache env
              (setFile (eraseFile d (cacheName dir archiveTag))
                (cacheName dir archiveTag) artifact)
              dir buildTag payload with
          | error e => simp [hbuild, hcp, hwrite] at h
          | ok d4 =>
            have hred : unpackSize c dir payload
                (eraseFile d4 (cacheName dir archiveTag)) = (.ok q, c', d') := by
              rw [← h]
              simp [hbuild, hcp, hwrite]
            obtain ⟨hs, hc, hd⟩ := unpackSize_ok_inv c dir payload _ q c' d' hred
            obtain ⟨hwf2, hd4⟩ := writeCache_ok_inv env _ dir buildTag payload d4 hwrite
            refine ⟨payload, ?_, hs, hc, Or.inl ⟨?_, htok⟩⟩
            · rw [hd, hd4,
                getFile_eraseFile_ne _ _ _ (buildName_ne_archiveName dir),
                getFile_setFile_self]
            · rw [hd, hd4,
                getFile_eraseFile_ne _ _ _
                  (fun hh => cacheName_ne_glopath dir archiveTag hh.symm),
                getFile_setFile_ne _ _ _ _ (cacheName_ne_glopath dir buildTag),
                getFile_setFile_ne _ _ _ _ (cacheName_ne_glopath dir archiveTag),
                getFile_eraseFile_ne _ _ _
                  (fun hh => cacheName_ne_glopath dir archiveTag hh.symm)]
  · cases hwf : env.diskWriteFails glopathName with
    | true =>
      rw [tryCache_wipe_fail env c d dir buildTag htok hwf] at h
      simp at h
    | false =>
      rw [tryCache_wipe env c d dir buildTag htok hwf] at h
      cases hbuild : env.goBuild dir with
      | none => simp [hbuild] at h
      | some artifact =>
        cases hcp : computePkgInfo env
            (setFile (eraseFile [(glopathName, tokenFileContent c)]
                (cacheName dir archiveTag))
              (cacheName dir archiveTag) artifact)
            (cacheName dir archiveTag) with
        | error e => simp [hbuild, hcp] at h
        | ok payload =>
          cases hwrite : WriteCache env
              (setFile (eraseFile [(glopathName, tokenFileContent c)]
                  (cacheName dir archiveTag))
                (cacheName dir archiveTag) artifact)
              dir buildTag payload with
          | error e => simp [hbuild, hcp, hwrite] at h
          | ok d4 =>
            have hred : unpackSize c dir payload
                (eraseFile d4 (cacheName dir archiveTag)) = (.ok q, c', d') := by
              rw [← h]
              simp [hbuild, hcp, hwrite]
            obtain ⟨hs, hc, hd⟩ := unpackSize_ok_inv c dir payload _ q c' d' hred
            obtain ⟨hwf2, hd4⟩ := writeCache_ok_inv env _ dir buildTag payload d4 hwrite
            refine ⟨payload, ?_, hs, hc, Or.inr ?_⟩
            · rw [hd, hd4,
                getFile_eraseFile_ne _ _ _ (buildName_ne_archiveName dir),
                getFile_setFile_self]
            · rw [hd, hd4,
                getFile_eraseFile_ne _ _ _
                  (fun hh => cacheName_ne_glopath dir archiveTag hh.symm),
                getFile_setFile_ne _ _ _ _ (cacheName_ne_glopath dir buildTag),
                getFile_setFile_ne _ _ _ _ (cacheName_ne_glopath dir archiveTag),
                getFile_eraseFile_ne _ _ _
                  (fun hh => cacheName_ne_glopath dir archiveTag hh.symm)]
              unfold getFile lookupA
              rw [if_pos rfl]

/-! Claim theorems. -/

/-- C5: PkgSize called with identifier "unsafe" always returns exactly
Size 1, NumFuncs 0, for every environment, cache state and disk, with the
cache and disk components returned untouched: since the result is constant
in the environment and in the disk, and the state is unchanged, the call
neither reads nor writes the memory map or the disk store and invokes no
external collaborator. -/
theorem pkgsize_unsafe_constant (env : Env) (c : Cache) (d : Disk) :
    PkgSize env c d (("unsafe").toList) =
      (.ok { Size := 1, NumFuncs := 0 }, c, d) := by
  unfold PkgSize
  rw [if_pos rfl]

/-- C2: checkValid compares the trimmed token file content with
repohash ++ " " ++ goroothash; on equality it performs no action and
returns the disk untouched, and on inequality (with the token write not
failing) the resulting root holds exactly the freshly written token file,
so every previously cached entry is discarded. -/
theorem checkValid_compare_and_invalidate (env : Env) (c : Cache) (d : Disk) :
    (trimSpace ((getFile d glopathName).getD []) = wantToken c →
      checkValid env c d = (.ok (), d)) ∧
    (¬ trimSpace ((getFile d glopathName).getD []) = wantToken c →
      env.diskWriteFails glopathName = false →
      checkValid env c d = (.ok (), [(glopathName, tokenFileContent c)])) :=
  ⟨fun h => checkValid_of_tokenOk env c d h,
   fun h hw => checkValid_wipe env c d h hw⟩

/-- C2 witness: the matching branch on the fixture disk, and the wipe
branch on the stale disk. -/
theorem checkValid_compare_and_invalidate_witness :
    checkValid envW cW dW = (.ok (), dW) ∧
    checkValid envW cW dStale = (.ok (), [(glopathName, tokenFileContent cW)]) :=
  ⟨(checkValid_compare_and_invalidate envW cW dW).1 (by decide),
   (checkValid_compare_and_invalidate envW cW dStale).2 (by decide) (by decide)⟩

/-- C9: when repohash ++ " " ++ goroothash is not fixed under trimming (for
example both hashes empty, making the expected value a single space), every
validity check observes a mismatch — the trimmed stored token is trim-fixed
and therefore can never equal the expected value — and wipes and recreates
the root, including on the very disk state its own rewrite produced, so the
disk store is never trusted within or across runs. -/
theorem pathological_token_never_valid (c : Cache) (env : Env) (d : Disk)
    (hpath : ¬ trimSpace (wantToken c) = wantToken c)
    (hw : env.diskWriteFails glopathName = false) :
    ¬ trimSpace ((getFile d glopathName).getD []) = wantToken c ∧
    checkValid env c d = (.ok (), [(glopathName, tokenFileContent c)]) ∧
    ¬ trimSpace ((getFile [(glopathName, tokenFileContent c)]
        glopathName).getD []) = wantToken c ∧
    checkValid env c [(glopathName, tokenFileContent c)] =
      (.ok (), [(glopathName, tokenFileContent c)]) := by
  have hmis : ∀ d0 : Disk,
      ¬ trimSpace ((getFile d0 glopathName).getD []) = wantToken c := by
    intro d0 he
    apply hpath
    rw [← he, trimSpace_idem]
  exact ⟨hmis d, checkValid_wipe env c d (hmis d) hw, hmis _,
    checkValid_wipe env c _ (hmis _) hw⟩

/-- C9 witness: both hashes empty over the fixture environment and an
arbitrary starting disk. -/
theorem pathological_token_never_valid_witness :
    ¬ trimSpace ((getFile dW glopathName).getD []) = wantToken cEmptyHashes ∧
    checkValid envW cEmptyHashes dW =
      (.ok (), [(glopathName, tokenFileContent cEmptyHashes)]) ∧
    ¬ trimSpace ((getFile [(glopathName, tokenFileContent cEmptyHashes)]
        glopathName).getD []) = wantToken cEmptyHashes ∧
    checkValid envW cEmptyHashes [(glopathName, tokenFileContent cEmptyHashes)] =
      (.ok (), [(glopathName, tokenFileContent cEmptyHashes)]) :=
  pathological_token_never_valid cEmptyHashes envW dW (by decide) (by decide)

/-- C3: if the disk entry file for a query exists under a matching token but
its bytes fail to decode — unmarshal failure for a list entry, a
two-integer scan failure for a size entry — the query returns the decode
error with the cache and disk untouched, and the result is the same for
every list/build/nm collaborator and write-failure injection, so the query
never falls back to the external collaborator and never treats the
malformed entry as a miss. -/
theorem malformed_entry_surfaces_decode_error :
    (∀ (env : Env) (c : Cache) (d : Disk) (dir bs : Str),
      lookupA (Cache.listcache c) dir = none →
      tokenOk c d →
      getFile d (cacheName dir listTag) = some bs →
      env.unmarshalPkg bs = none →
      ∀ f w, GoList { env with goListOut := f, diskWriteFails := w } c d dir =
        (.error (.unmarshalFail dir), c, d)) ∧
    (∀ (env : Env) (c : Cache) (d : Disk) (dir bs : Str),
      ¬ dir = ("unsafe").toList →
      lookupA (Cache.pkgsizecache c) dir = none →
      tokenOk c d →
      getFile d (cacheName dir buildTag) = some bs →
      sscanfTwoInts bs = none →
      ∀ f g w, PkgSize { env with goBuild := f, nm := g, diskWriteFails := w }
          c d dir = (.error (.sizeDecode bs), c, d)) := by
  constructor
  · intro env c d dir bs hm htok hfile hdec f w
    unfold GoList
    rw [hm, tryCache_of_tokenOk _ c d dir listTag htok, hfile]
    simp [hdec]
  · intro env c d dir bs hus hm htok hfile hdec f g w
    unfold PkgSize
    rw [if_neg hus, hm, tryCache_of_tokenOk _ c d dir buildTag htok, hfile]
    simp [unpackSize, hdec]

/-- C3 witness: an undecodable list entry and an unscannable size entry on
the fixture cache, with all collaborators and writes replaced by failing
ones. -/
theorem malformed_entry_surfaces_decode_error_witness :
    GoList { envW with goListOut := (fun _ => none), diskWriteFails := (fun _ => true) }
        cW dBadList ioW = (.error (.unmarshalFail ioW), cW, dBadList) ∧
    PkgSize { envW with
        goBuild := fun _ => none
        nm := fun _ => none
        diskWriteFails := fun _ => true } cW dBadSize ioW =
      (.error (.sizeDecode (("x y").toList)), cW, dBadSize) :=
  ⟨malformed_entry_surfaces_decode_error.1 envW cW dBadList ioW (("BAD").toList)
      (by decide) (by decide) (by decide) (by decide) (fun _ => none)
      (fun _ => true),
   malformed_entry_surfaces_decode_error.2 envW cW dBadSize ioW (("x y").toList)
      (by decide) (by decide) (by decide) (by decide) (by decide)
      (fun _ => none) (fun _ => none) (fun _ => true)⟩

/-- C4 counterexample: in a state with a stale validity token and an
existing disk entry for "io", a GoList call whose collaborator fails first
wipes the store, so the call both returns an error and deletes the entry
for that identifier: the disk store IS modified for that identifier,
refuting the claim as stated. -/
theorem collaborator_failure_after_wipe_modifies_disk :
    GoList envFailList cW dStale ioW =
      (.error (.goListFail ioW), cW, [(glopathName, tokenFileContent cW)]) ∧
    getFile dStale (cacheName ioW listTag) = some (("OLD").toList) ∧
    getFile [(glopathName, tokenFileContent cW)] (cacheName ioW listTag) = none := by
  decide

/-- C4 (amended): provided the validity token matches (so the full-store
wipe of the validity check does not fire) and the entry is absent, a
collaborator failure on the full-miss path returns the error with the
in-memory maps and the disk wholly unmodified — for PkgSize additionally
assuming no leftover artifact file, which the pre-build cleanup would
remove — so nothing is cached and a subsequent call re-attempts the
computation. -/
theorem collaborator_failure_caches_nothing :
    (∀ (env : Env) (c : Cache) (d : Disk) (dir : Str),
      lookupA (Cache.listcache c) dir = none →
      tokenOk c d →
      getFile d (cacheName dir listTag) = none →
      env.goListOut dir = none →
      GoList env c d dir = (.error (.goListFail dir), c, d)) ∧
    (∀ (env : Env) (c : Cache) (d : Disk) (dir : Str),
      ¬ dir = ("unsafe").toList →
      lookupA (Cache.pkgsizecache c) dir = none →
      tokenOk c d →
      getFile d (cacheName dir buildTag) = none →
      getFile d (cacheName dir archiveTag) = none →
      env.goBuild dir = none →
      PkgSize env c d dir = (.error (.buildFail dir), c, d)) := by
  constructor
  · intro env c d dir hm htok hfile hgl
    unfold GoList
    rw [hm, tryCache_of_tokenOk env c d dir listTag htok, hfile]
    simp [goListUncached, hgl]
  · intro env c d dir hus hm htok hfile harch hbuild
    unfold PkgSize
    rw [hm, tryCache_of_tokenOk env c d dir buildTag htok, if_neg hus, hfile]
    simp [hbuild, eraseFile_of_getFile_none d _ harch]

/-- C4 witness: failing collaborators on the fixture cache with a matching
token and no entries. -/
theorem collaborator_failure_caches_nothing_witness :
    GoList envFailList cW dW ioW = (.error (.goListFail ioW), cW, dW) ∧
    PkgSize envFailBuild cW dW ioW = (.error (.buildFail ioW), cW, dW) :=
  ⟨collaborator_failure_caches_nothing.1 envFailList cW dW ioW
      (by decide) (by decide) (by decide) (by decide),
   collaborator_failure_caches_nothing.2 envFailBuild cW dW ioW
      (by decide) (by decide) (by decide) (by decide) (by decide) (by decide)⟩

/-- C8 helper: the character substitution is injective on identifiers free
of the substitute character. -/
theorem encodeId_inj : ∀ (x y : Str), (∀ ch ∈ x, ¬ ch = '%') →
    (∀ ch ∈ y, ¬ ch = '%') → encodeId x = encodeId y → x = y := by
  intro x
  induction x with
  | nil =>
    intro y _ _ h
    cases y with
    | nil => rfl
    | cons b t => simp [encodeId] at h
  | cons a s ih =>
    intro y hx hy h
    cases y with
    | nil => simp [encodeId] at h
    | cons b t =>
      unfold encodeId at h
      simp only [List.map_cons, List.cons.injEq] at h
      obtain ⟨h1, h2⟩ := h
      have hab : a = b := by
        by_cases ha : a = '/'
        · by_cases hb : b = '/'
          · rw [ha, hb]
          · rw [if_pos ha, if_neg hb] at h1
            exact absurd h1.symm (hy b (by simp))
        · by_cases hb : b = '/'
          · rw [if_neg ha, if_pos hb] at h1
            exact absurd h1 (hx a (by simp))
          · rw [if_neg ha, if_neg hb] at h1
            exact h1
      subst hab
      rw [ih t (fun ch hc => hx ch (by simp [hc])) (fun ch hc => hy ch (by simp [hc]))
        h2]

/-- C6 counterexample: on a full miss whose build succeeds but whose symbol
inspection fails, PkgSize returns the measurement error without deleting
the built artifact: the ".archive" file remains on disk when the call
returns, refuting deletion regardless of success. -/
theorem artifact_left_behind_on_nm_failure :
    PkgSize envFailNm cW dW ioW =
      (.error (.nmFail (cacheName ioW archiveTag)), cW,
       (cacheName ioW archiveTag, artW) :: dW) ∧
    getFile ((cacheName ioW archiveTag, artW) :: dW) (cacheName ioW archiveTag) =
      some artW := by
  decide

/-- C6 (amended): on a full-miss path that reaches the build step, the
temporary artifact is deleted exactly when the measurement and the
subsequent cache write succeed; when the symbol inspection fails, the call
returns an error and the artifact file is left on disk (it is removed only
by the pre-build cleanup of a later full miss). -/
theorem artifact_cleanup_iff_success :
    (∀ (env : Env) (c : Cache) (d : Disk) (dir art nmout : Str),
      ¬ dir = ("unsafe").toList →
      lookupA (Cache.pkgsizecache c) dir = none →
      tokenOk c d →
      getFile d (cacheName dir buildTag) = none →
      env.goBuild dir = some art →
      env.nm art = some nmout →
      env.diskWriteFails (cacheName dir buildTag) = false →
      (PkgSize env c d dir).1 =
        .ok { Size := (art.length : Int), NumFuncs := countFuncs nmout } ∧
      getFile (PkgSize env c d dir).2.2 (cacheName dir archiveTag) = none) ∧
    (∀ (env : Env) (c : Cache) (d : Disk) (dir art : Str),
      ¬ dir = ("unsafe").toList →
      lookupA (Cache.pkgsizecache c) dir = none →
      tokenOk c d →
      getFile d (cacheName dir buildTag) = none →
      env.goBuild dir = some art →
      env.nm art = none →
      (PkgSize env c d dir).1 = .error (.nmFail (cacheName dir archiveTag)) ∧
      getFile (PkgSize env c d dir).2.2 (cacheName dir archiveTag) = some art) := by
  constructor
  · intro env c d dir art nmout hus hm htok hfile hbuild hnm hwf
    have h3 : getFile (setFile (eraseFile d (cacheName dir archiveTag))
        (cacheName dir archiveTag) art) (cacheName dir archiveTag) = some art :=
      getFile_setFile_self _ _ _
    have hrun : PkgSize env c d dir =
        (.ok ({ Size := (art.length : Int), NumFuncs := countFuncs nmout } : PkgInfo),
         { c with pkgsizecache := (setA c.pkgsizecache dir
             ({ Size := (art.length : Int), NumFuncs := countFuncs nmout } : PkgInfo)) },
         eraseFile (setFile (setFile (eraseFile d (cacheName dir archiveTag))
             (cacheName dir archiveTag) art) (cacheName dir buildTag)
             (encodePkgInfo (art.length : Int) (countFuncs nmout)))
           (cacheName dir archiveTag)) := by
      unfold PkgSize
      rw [if_neg hus, hm, tryCache_of_tokenOk env c d dir buildTag htok, hfile]
      simp only [hbuild]
      rw [computePkgInfo_eval env _ _ art h3]
      simp only [hnm, WriteCache, hwf]
      simp only [unpackSize, sscanf_roundtrip]
      simp
    rw [hrun]
    exact ⟨rfl, getFile_eraseFile_self _ _⟩
  · intro env c d dir art hus hm htok hfile hbuild hnm
    have h3 : getFile (setFile (eraseFile d (cacheName dir archiveTag))
        (cacheName dir archiveTag) art) (cacheName dir archiveTag) = some art :=
      getFile_setFile_self _ _ _
    have hrun : PkgSize env c d dir =
        (.error (.nmFail (cacheName dir archiveTag)), c,
         setFile (eraseFile d (cacheName dir archiveTag))
           (cacheName dir archiveTag) art) := by
      unfold PkgSize
      rw [if_neg hus, hm, tryCache_of_tokenOk env c d dir buildTag htok, hfile]
      simp only [hbuild]
      rw [computePkgInfo_eval env _ _ art h3]
      simp only [hnm]
    rw [hrun]
    exact ⟨rfl, getFile_setFile_self _ _ _⟩

/-- C6 witness: the fixture cache, with the successful environment for the
deletion half and the nm-failing environment for the persistence half. -/
theorem artifact_cleanup_iff_success_witness :
    ((PkgSize envW cW dW ioW).1 =
      .ok { Size := (artW.length : Int), NumFuncs := countFuncs nmOutW } ∧
     getFile (PkgSize envW cW dW ioW).2.2 (cacheName ioW archiveTag) = none) ∧
    ((PkgSize envFailNm cW dW ioW).1 =
      .error (.nmFail (cacheName ioW archiveTag)) ∧
     getFile (PkgSize envFailNm cW dW ioW).2.2 (cacheName ioW archiveTag) =
       some artW) :=
  ⟨artifact_cleanup_iff_success.1 envW cW dW ioW artW nmOutW
      (by decide) (by decide) (by decide) (by decide) (by decide) (by decide)
      (by decide),
   artifact_cleanup_iff_success.2 envFailNm cW dW ioW artW
      (by decide) (by decide) (by decide) (by decide) (by decide) (by decide)⟩

/-- C7 counterexample: the two-integer scan accepts payloads holding more
than two integers or trailing garbage after the second integer, returning
the first two values, so such payloads are not rejected as decode errors. -/
theorem sscanf_accepts_extra_input :
    sscanfTwoInts (("1 2 3").toList) = some (1, 2) ∧
    sscanfTwoInts (("1 2junk").toList) = some (1, 2) := by
  decide

/-- C7 (amended): the size payload is the two integers space-separated with
a trailing newline; decoding the encoding of (size, funcs) yields (size,
funcs) again for all integers, and a payload from which two leading
integers cannot be scanned is a decode error, while content after the two
scanned integers is ignored rather than rejected. -/
theorem size_payload_roundtrip :
    (∀ sz nf : Int, sscanfTwoInts (encodePkgInfo sz nf) = some (sz, nf)) ∧
    sscanfTwoInts [] = none ∧
    sscanfTwoInts (("12").toList) = none ∧
    sscanfTwoInts (("x y").toList) = none ∧
    sscanfTwoInts (("1 x").toList) = none :=
  ⟨sscanf_roundtrip, by decide, by decide, by decide, by decide⟩

/-- C8 counterexample: the identifiers "a/b" and "a%b" are distinct but
produce the same encoded entry file name for the same query kind, so the
substitution is not one-to-one on all identifiers. -/
theorem encode_collision_slash_percent :
    cacheName (("a/b").toList) listTag = cacheName (("a%b").toList) listTag ∧
    ¬ ("a/b").toList = ("a%b").toList := by
  decide

/-- C8 (amended): the identifier-to-filename encoding is one-to-one on
identifiers that do not contain the substitute character: for any two
distinct percent-free identifiers, the encoded on-disk entry names for the
same query kind are distinct.  Identifiers already containing the percent
character can collide with slash-bearing ones. -/
theorem encode_injective_without_percent (x y tag : Str)
    (hx : ∀ ch ∈ x, ¬ ch = '%') (hy : ∀ ch ∈ y, ¬ ch = '%')
    (hne : ¬ x = y) : ¬ cacheName x tag = cacheName y tag := by
  intro h
  apply hne
  unfold cacheName at h
  exact encodeId_inj x y hx hy (List.append_cancel_right h)

/-- C8 witness: two percent-free identifiers with distinct entry names. -/
theorem encode_injective_without_percent_witness :
    ¬ cacheName (("a").toList) listTag = cacheName (("b").toList) listTag :=
  encode_injective_without_percent (("a").toList) (("b").toList) listTag
    (by decide) (by decide) (by decide)

/-- C10: on a full miss, GoList populates the list memory map before
writing the disk entry, so when the entry write fails it returns the write
error with the new memory entry retained, and a subsequent GoList for the
same identifier answers from memory (for every environment and disk, hence
without recomputation); PkgSize populates its memory map only after the
disk write has succeeded, so the same failure returns the cache component
exactly as it was passed in, with no size entry added. -/
theorem list_memory_survives_write_failure :
    (∀ (env : Env) (c : Cache) (d : Disk) (dir out : Str) (pk : Pkg),
      lookupA (Cache.listcache c) dir = none →
      tokenOk c d →
      getFile d (cacheName dir listTag) = none →
      env.goListOut dir = some out →
      env.unmarshalPkg out = some pk →
      env.diskWriteFails (cacheName dir listTag) = true →
      GoList env c d dir =
        (.error (.writingCache (.cacheWrite (cacheName dir listTag))),
         { c with listcache := setA c.listcache dir pk }, d) ∧
      (∀ (env2 : Env) (d2 : Disk),
        GoList env2 { c with listcache := setA c.listcache dir pk } d2 dir =
          (.ok pk, { c with listcache := setA c.listcache dir pk }, d2))) ∧
    (∀ (env : Env) (c : Cache) (d : Disk) (dir art nmout : Str),
      ¬ dir = ("unsafe").toList →
      lookupA (Cache.pkgsizecache c) dir = none →
      tokenOk c d →
      getFile d (cacheName dir buildTag) = none →
      env.goBuild dir = some art →
      env.nm art = some nmout →
      env.diskWriteFails (cacheName dir buildTag) = true →
      PkgSize env c d dir =
        (.error (.writingCache (.cacheWrite (cacheName dir buildTag))), c,
         setFile (eraseFile d (cacheName dir archiveTag))
           (cacheName dir archiveTag) art)) := by
  constructor
  · intro env c d dir out pk hm htok hfile hglo hum hwf
    constructor
    · unfold GoList
      rw [hm, tryCache_of_tokenOk env c d dir listTag htok, hfile]
      simp [goListUncached, hglo, hum, WriteCache, hwf]
    · intro env2 d2
      unfold GoList
      rw [lookupA_setA_self (Cache.listcache c) dir pk]
  · intro env c d dir art nmout hus hm htok hfile hbuild hnm hwf
    have h3 : getFile (setFile (eraseFile d (cacheName dir archiveTag))
        (cacheName dir archiveTag) art) (cacheName dir archiveTag) = some art :=
      getFile_setFile_self _ _ _
    unfold PkgSize
    rw [if_neg hus, hm, tryCache_of_tokenOk env c d dir buildTag htok, hfile]
    simp only [hbuild]
    rw [computePkgInfo_eval env _ _ art h3]
    simp only [hnm, WriteCache, hwf]
    simp

/-- C10 witness: the fixture cache under the environment whose entry
writes fail, for both query kinds. -/
theorem list_memory_survives_write_failure_witness :
    (GoList envFailWr cW dW ioW =
      (.error (.writingCache (.cacheWrite (cacheName ioW listTag))),
       { cW with listcache := setA (Cache.listcache cW) ioW pkgIoW }, dW) ∧
     (∀ (env2 : Env) (d2 : Disk),
       GoList env2 { cW with listcache := setA (Cache.listcache cW) ioW pkgIoW }
           d2 ioW =
         (.ok pkgIoW,
          { cW with listcache := setA (Cache.listcache cW) ioW pkgIoW }, d2))) ∧
    PkgSize envFailWr cW dW ioW =
      (.error (.writingCache (.cacheWrite (cacheName ioW buildTag))), cW,
       setFile (eraseFile dW (cacheName ioW archiveTag))
         (cacheName ioW archiveTag) artW) :=
  ⟨list_memory_survives_write_failure.1 envFailWr cW dW ioW jsonW pkgIoW
      (by decide) (by decide) (by decide) (by decide) (by decide) (by decide),
   list_memory_survives_write_failure.2 envFailWr cW dW ioW artW nmOutW
      (by decide) (by decide) (by decide) (by decide) (by decide) (by decide)
      (by decide)⟩

/-- C1: a successful list or size query is bit-identical on a second call
within the same process: success always leaves the decoded result in the
corresponding in-memory map, and the repeated call returns the same result
with the cache unchanged for EVERY environment and disk, so it performs no
disk or collaborator access.  Moreover, when a first query that was not a
memory hit succeeds over trim-fixed hashes, a fresh Cache constructed by
Make over the resulting CacheRoot with the same hash pair trusts the
token, and its query finds the entry on disk and returns the identical
result with the disk unchanged — the disk-hit path. -/
theorem query_results_bit_identical :
    (∀ (env env2 : Env) (c : Cache) (d d2 : Disk) (dir : Str) (p : Pkg)
        (c' : Cache) (d' : Disk),
      GoList env c d dir = (.ok p, c', d') →
      GoList env2 c' d2 dir = (.ok p, c', d2)) ∧
    (∀ (env env2 : Env) (c : Cache) (d d2 : Disk) (dir : Str) (q : PkgInfo)
        (c' : Cache) (d' : Disk),
      PkgSize env c d dir = (.ok q, c', d') →
      PkgSize env2 c' d2 dir = (.ok q, c', d2)) ∧
    (∀ (env : Env) (c : Cache) (d : Disk) (dir : Str) (p : Pkg)
        (c' : Cache) (d' : Disk),
      trimSpace (wantToken c) = wantToken c →
      lookupA (Cache.listcache c) dir = none →
      GoList env c d dir = (.ok p, c', d') →
      Make env c.repohash c.goroothash c.root c.vlevel d' =
        (.ok (mkCache c.repohash c.goroothash c.root c.vlevel), d') ∧
      GoList env (mkCache c.repohash c.goroothash c.root c.vlevel) d' dir =
        (.ok p, { mkCache c.repohash c.goroothash c.root c.vlevel with
            listcache := [(dir, p)] }, d')) ∧
    (∀ (env : Env) (c : Cache) (d : Disk) (dir : Str) (q : PkgInfo)
        (c' : Cache) (d' : Disk),
      ¬ dir = ("unsafe").toList →
      trimSpace (wantToken c) = wantToken c →
      lookupA (Cache.pkgsizecache c) dir = none →
      PkgSize env c d dir = (.ok q, c', d') →
      Make env c.repohash c.goroothash c.root c.vlevel d' =
        (.ok (mkCache c.repohash c.goroothash c.root c.vlevel), d') ∧
      PkgSize env (mkCache c.repohash c.goroothash c.root c.vlevel) d' dir =
        (.ok q, { mkCache c.repohash c.goroothash c.root c.vlevel with
            pkgsizecache := [(dir, q)] }, d')) := by
  refine ⟨?_, ?_, ?_, ?_⟩
  · intro env env2 c d d2 dir p c' d' h
    have hm := goList_mem_of_ok env c d dir p c' d' h
    unfold GoList
    rw [hm]
  · intro env env2 c d d2 dir q c' d' h
    by_cases hus : dir = ("unsafe").toList
    · unfold PkgSize at h
      rw [if_pos hus] at h
      simp at h
      obtain ⟨h1, h2, h3⟩ := h
      unfold PkgSize
      rw [if_pos hus, ← h1, ← h2]
    · rcases pkgSize_of_ok env c d dir q c' d' h with ⟨h1, _, _⟩ | hmem
      · exact absurd h1 hus
      · unfold PkgSize
        rw [if_neg hus, hmem]
  · intro env c d dir p c' d' hnorm hm h
    obtain ⟨out, hfile, hum, hc, htokd⟩ := goList_miss_inv env c d dir p c' d' hm h
    have htok2 : tokenOk c d' := by
      rcases htokd with ⟨heq, htok⟩ | hsome
      · show trimSpace ((getFile d' glopathName).getD []) = wantToken c
        rw [heq]
        exact htok
      · show trimSpace ((getFile d' glopathName).getD []) = wantToken c
        rw [hsome]
        exact trimSpace_append_nl (wantToken c) hnorm
    have hmk : tokenOk (mkCache c.repohash c.goroothash c.root c.vlevel) d' :=
      htok2
    constructor
    · unfold Make
      rw [checkValid_of_tokenOk _ _ _ hmk]
    · unfold GoList
      have hempty : lookupA
          (Cache.listcache (mkCache c.repohash c.goroothash c.root c.vlevel))
          dir = none := rfl
      rw [hempty, tryCache_of_tokenOk _ _ _ dir listTag hmk, hfile]
      simp [hum, setA, mkCache]
  · intro env c d dir q c' d' hus hnorm hm h
    obtain ⟨out, hfile, hscan, hc, htokd⟩ :=
      pkgSize_miss_inv env c d dir q c' d' hus hm h
    have htok2 : tokenOk c d' := by
      rcases htokd with ⟨heq, htok⟩ | hsome
      · show trimSpace ((getFile d' glopathName).getD []) = wantToken c
        rw [heq]
        exact htok
      · show trimSpace ((getFile d' glopathName).getD []) = wantToken c
        rw [hsome]
        exact trimSpace_append_nl (wantToken c) hnorm
    have hmk : tokenOk (mkCache c.repohash c.goroothash c.root c.vlevel) d' :=
      htok2
    constructor
    · unfold Make
      rw [checkValid_of_tokenOk _ _ _ hmk]
    · unfold PkgSize
      rw [if_neg hus]
      have hempty : lookupA
          (Cache.pkgsizecache (mkCache c.repohash c.goroothash c.root c.vlevel))
          dir = none := rfl
      rw [hempty, tryCache_of_tokenOk _ _ _ dir buildTag hmk, hfile]
      simp [unpackSize, hscan, setA, mkCache]

/-- C1 witness: the fixture list and size queries; the repeated calls run
under the all-failing environment on an empty disk and still return the
identical results, and the fresh instances disk-hit on the written
entries. -/
theorem query_results_bit_identical_witness :
    GoList envNone cListW [] ioW = (.ok pkgIoW, cListW, []) ∧
    PkgSize envNone cSizeW [] ioW = (.ok piIoW, cSizeW, []) ∧
    (Make envW cW.repohash cW.goroothash cW.root cW.vlevel dListW =
      (.ok (mkCache cW.repohash cW.goroothash cW.root cW.vlevel), dListW) ∧
     GoList envW (mkCache cW.repohash cW.goroothash cW.root cW.vlevel)
         dListW ioW =
       (.ok pkgIoW, { mkCache cW.repohash cW.goroothash cW.root cW.vlevel with
           listcache := [(ioW, pkgIoW)] }, dListW)) ∧
    (Make envW cW.repohash cW.goroothash cW.root cW.vlevel dSizeW =
      (.ok (mkCache cW.repohash cW.goroothash cW.root cW.vlevel), dSizeW) ∧
     PkgSize envW (mkCache cW.repohash cW.goroothash cW.root cW.vlevel)
         dSizeW ioW =
       (.ok piIoW, { mkCache cW.repohash cW.goroothash cW.root cW.vlevel with
           pkgsizecache := [(ioW, piIoW)] }, dSizeW)) :=
  ⟨query_results_bit_identical.1 envW envNone cW dW [] ioW pkgIoW cListW dListW
      (by decide),
   query_results_bit_identical.2.1 envW envNone cW dW [] ioW piIoW cSizeW dSizeW
      (by decide),
   query_results_bit_identical.2.2.1 envW cW dW ioW pkgIoW cListW dListW
      (by decide) (by decide) (by decide),
   query_results_bit_identical.2.2.2 envW cW dW ioW piIoW cSizeW dSizeW
      (by decide) (by decide) (by decide) (by decide)⟩

end Gocmdcache
